import Mathlib

/-!
Verification of `packages/liveui/liveevents.js` (Meteor LiveEvents).

Shallow embedding: DOM nodes are natural numbers; the DOM's structural
functions (`parentNode`, `nextSibling`) and the external selector matcher
(`$(context).find(selector)`) are parameters bundled in a `Dom` structure.
jQuery's per-node handler bookkeeping (`$.event.add` / `unbind`) is modelled
as an explicit list of listener registrations.  Strings are Lean `String`s,
and the two JavaScript regex splits used by the parser (`/,\s+/` and
`/\s+/`) are implemented character by character with JavaScript
`String.prototype.split` semantics (a split never returns an empty array;
leading/trailing separators produce empty tokens).
-/

namespace LiveEvents

/-- JavaScript whitespace class `\s`, restricted to the four common
whitespace characters (the spec strings in play contain no exotic
whitespace). -/
def isWs (c : Char) : Bool :=
  c == ' ' || c == '\t' || c == '\n' || c == '\r'

/-- Worker for `jsSplitWs`.  First argument `some acc` means we are inside a
token whose characters (reversed) are `acc`; `none` means we are inside a
separator run (a maximal run of whitespace). -/
def splitWsAux : Option (List Char) → List Char → List (List Char)
  | some acc, [] => [acc.reverse]
  | none, [] => [[]]
  | some acc, c :: cs =>
      if isWs c then acc.reverse :: splitWsAux none cs
      else splitWsAux (some (c :: acc)) cs
  | none, c :: cs =>
      if isWs c then splitWsAux none cs
      else splitWsAux (some [c]) cs

/-- JavaScript `str.split(/\s+/)` (source line 57: `clause.split(/\s+/)`).
Maximal whitespace runs separate tokens; a leading (resp. trailing)
separator yields a leading (resp. trailing) empty token, and splitting the
empty string yields `[""]` — a JS split never returns an empty array. -/
def jsSplitWs (l : List Char) : List (List Char) :=
  splitWsAux (some []) l

/-- Worker for `jsSplitCommaWs`.  First argument `true` means we are
consuming the (greedy) whitespace run of a just-matched `/,\s+/` separator;
`false` means we are accumulating a token (reversed in `acc`).  When the
whitespace run ends, scanning resumes at the first non-whitespace
character, so a new separator may begin there immediately and yield an
empty token (e.g. `"a, , b"` splits into `"a"`, `""`, `"b"`); the nested
match performs that resumed separator test in place. -/
def splitCWAux : Bool → List Char → List Char → List (List Char)
  | true, _, [] => [[]]
  | false, acc, [] => [acc.reverse]
  | true, acc, c :: cs =>
      if isWs c then splitCWAux true acc cs
      else
        match cs with
        | c2 :: cs2 =>
            if c == ',' && isWs c2 then [] :: splitCWAux true [] (c2 :: cs2)
            else splitCWAux false [c] (c2 :: cs2)
        | [] => [[c]]
  | false, acc, c1 :: c2 :: cs =>
      if c1 == ',' && isWs c2 then acc.reverse :: splitCWAux true [] (c2 :: cs)
      else splitCWAux false (c1 :: acc) (c2 :: cs)
  | false, acc, [c] => [(c :: acc).reverse]

/-- JavaScript `spec.split(/,\s+/)` (source line 55): a separator is a comma
followed by a maximal nonempty whitespace run. -/
def jsSplitCommaWs (l : List Char) : List (List Char) :=
  splitCWAux false [] l

/-- The event-type rewriting switch (source lines 63–87).  `iehack` is true
exactly when the legacy compatibility layer (`wireIEChangeSubmitHack`) is
active.  Returns `(rewrittenEventType, bubbles)`; both start as
`(eventType, true)` and are mutated by the matching `case`. -/
def rewriteType (iehack : Bool) (eventType : String) : String × Bool :=
  if eventType = "focus" then ("focusin", false)
  else if eventType = "blur" then ("focusout", false)
  else if eventType = "change" then
    (if iehack then "cellchange" else "change", true)
  else if eventType = "submit" then
    (if iehack then "datasetcomplete" else "submit", true)
  else (eventType, true)

/-- A normalized binding: the data computed for one clause of a spec string
(source lines 57–87).  The user callback function is represented by an
identity `callback : Nat`. -/
structure Binding where
  eventType : String
  rewrittenType : String
  bubbles : Bool
  selector : String
  callback : Nat
  deriving DecidableEq, Repr

/-- Parse one clause (source lines 57–87): split on `/\s+/`, shift the first
token as the event type, re-join the remaining tokens with single spaces as
the selector, and apply the rewriting switch.  The `[]` branch mirrors the
source's `if (parts.length === 0) return;` (lines 58–59), which is
unreachable under JS split semantics. -/
def parseClause (iehack : Bool) (cb : Nat) (clause : List Char) : Option Binding :=
  match jsSplitWs clause with
  | [] => none
  | eventType :: rest =>
      let eventTypeS := String.mk eventType
      let selector := String.mk (List.intercalate [' '] rest)
      let rb := rewriteType iehack eventTypeS
      some { eventType := eventTypeS, rewrittenType := rb.1, bubbles := rb.2,
             selector := selector, callback := cb }

/-- All bindings of an event map, in map order then clause order (the nested
`_.each` loops of source lines 54–62).  An event map is a list of
`(spec string, callback identity)` pairs in insertion order. -/
def parseEvents (iehack : Bool) (events : List (String × Nat)) : List Binding :=
  events.flatMap (fun p => (jsSplitCommaWs p.1.data).filterMap (parseClause iehack p.2))

/-- The ambient DOM and platform services consumed by the subsystem.  Nodes
are naturals; `parent`/`nextSibling` model the DOM links (`none` = null);
`find ctx sel` models the external selector matcher
`$(ctx).find(sel)` (source line 97). -/
structure Dom where
  parent : Nat → Option Nat
  nextSibling : Nat → Option Nat
  find : Nat → String → List Nat

/-- One jQuery listener registration made by `$.event.add(renderNode,
rewrittenType+".liveui", handler)` (source line 90).  The handler closure
captures the binding's fields, the node it was installed on (`renderNode`),
and the `event_data` context object (represented by an identity). -/
structure Registration where
  node : Nat
  rewrittenType : String
  ns : String
  eventType : String
  selector : String
  bubbles : Bool
  callback : Nat
  eventData : Nat
  deriving DecidableEq, Repr

/-- The registration installed for binding `b` on node `n` (source lines
89–118). -/
def regOf (b : Binding) (eventData n : Nat) : Registration :=
  { node := n, rewrittenType := b.rewrittenType, ns := "liveui",
    eventType := b.eventType, selector := b.selector, bubbles := b.bubbles,
    callback := b.callback, eventData := eventData }

/-- The node-range loop of source lines 120–122: `for (var n = start; n &&
n !== after; n = n.nextSibling)`.  `cur = none` models a null cursor;
`after` is `end.nextSibling`.  Fuel bounds the iteration (enough fuel is a
hypothesis wherever it matters). -/
def rangeNodes (next : Nat → Option Nat) : Option Nat → Option Nat → Nat → List Nat
  | some n, after, fuel + 1 =>
      if some n = after then [] else n :: rangeNodes next (next n) after fuel
  | _, _, _ => []

/-- Model of `Meteor.ui._attachEvents(start, end, events, event_data)` acting on the
listener-registration state (source lines 50–126): for each binding parsed
from the event map (outer `_.each` loops) and each node of the sibling range
(inner `for` loop), append one registration under the `"liveui"` namespace.
jQuery appends registrations in call order. -/
def attachEvents (dom : Dom) (iehack : Bool) (start endN : Nat)
    (events : List (String × Nat)) (event_data : Nat) (fuel : Nat)
    (regs : List Registration) : List Registration :=
  regs ++ (parseEvents iehack events).flatMap (fun b =>
    (rangeNodes dom.nextSibling (some start) (dom.nextSibling endN) fuel).map
      (regOf b event_data))

/-- The mutable fields of the event object the handler touches. -/
structure Evt where
  type : String
  target : Nat
  deriving DecidableEq, Repr

/-- The ancestry walk of source lines 99–111: starting at the event's
target, walk `parentNode` links until the context node, returning the first
node contained in the matcher's `results` (the source's `selectorMatch`);
break after the first step when `bubbles` is false.  A null cursor that is
not the context returns `none`: with `bubbles` false that is the source's
`break`, with `bubbles` true the source would dereference null (excluded by
the chain hypotheses of the theorems below).  Fuel bounds the walk. -/
def bubbleFind (parent : Nat → Option Nat) (results : List Nat) (bubbles : Bool)
    (contextNode : Option Nat) : Option Nat → Nat → Option Nat
  | cur, fuel + 1 =>
      if cur = contextNode then none
      else
        match cur with
        | none => none
        | some c =>
            if c ∈ results then some c
            else if bubbles then bubbleFind parent results bubbles contextNode (parent c) fuel
            else none
  | _, 0 => none

/-- One run of the installed handler (source lines 90–117) on event `evt`:
capture `contextNode := renderNode.parentNode`, restore `evt.type` to the
declared event type (line 92, before any selector test), and when the
selector is nonempty run the matcher and the ancestry walk, returning
without calling the callback when nothing matched.  Returns the event as
mutated and whether the user callback was invoked.  `$(null).find`
yields an empty match set. -/
def runListener (dom : Dom) (r : Registration) (evt : Evt) (fuel : Nat) : Evt × Bool :=
  let contextNode := dom.parent r.node
  let evt2 : Evt := { evt with type := r.eventType }
  if r.selector = "" then (evt2, true)
  else
    let results := match contextNode with
      | some c => dom.find c r.selector
      | none => []
    match bubbleFind dom.parent results r.bubbles contextNode (some evt.target) fuel with
    | some _ => (evt2, true)
    | none => (evt2, false)

/-- Run a list of handlers in order on an event, threading the event
mutation, and collect the `(callback, event_data)` pairs of the invocations
(`callback.call(event_data, evt)`, source line 116). -/
def runListeners (dom : Dom) : List Registration → Evt → Nat → Evt × List (Nat × Nat)
  | [], evt, _ => (evt, [])
  | r :: rest, evt, fuel =>
      let p := runListener dom r evt fuel
      let q := runListeners dom rest p.1 fuel
      (q.1, (if p.2 then [(r.callback, r.eventData)] else []) ++ q.2)

/-- Dispatch an event on a node: run, in registration order, every handler
bound on that node for the event's delivered type (regardless of
namespace, as jQuery does when a real event fires). -/
def fireEvent (dom : Dom) (regs : List Registration) (node : Nat) (evt : Evt)
    (fuel : Nat) : Evt × List (Nat × Nat) :=
  runListeners dom
    (regs.filter (fun r => r.node == node && r.rewrittenType == evt.type)) evt fuel

/-- Model of `Meteor.ui._resetEvents(node)` (source lines 144–148):
`$(node).unbind(".liveui")` removes every handler on `node` whose
namespace is `"liveui"`, whatever its event type, and nothing else. -/
def resetEvents (regs : List Registration) (node : Nat) : List Registration :=
  regs.filter (fun r => !(r.node == node && r.ns == "liveui"))

/-- The relation `ChainTo parent context t p`: `p` is the full parent-link path from `t`
(inclusive) up to but excluding `context`; every listed node is distinct
from `context` and the last listed node's parent is `context`. -/
def ChainTo (parent : Nat → Option Nat) (context : Nat) : Nat → List Nat → Prop
  | _, [] => False
  | t, [n] => n = t ∧ n ≠ context ∧ parent n = some context
  | t, n :: m :: rest =>
      n = t ∧ n ≠ context ∧ parent n = some m ∧ ChainTo parent context m (m :: rest)

/-- The relation `Linked next ns`: consecutive elements of `ns` are joined by
`nextSibling` links. -/
def Linked (next : Nat → Option Nat) : List Nat → Prop
  | [] => True
  | [_] => True
  | n :: m :: rest => next n = some m ∧ Linked next (m :: rest)

/-- The fields of an IE event object (`window.event`) that the
compatibility layer reads or writes.  `returnValue = none` models the
initial undefined value, which is not `=== false`. -/
structure IEEvent where
  type : String
  srcElement : Option Nat
  propertyName : String
  returnValue : Option Bool
  deriving DecidableEq, Repr

/-- Observable actions of the compatibility layer, in temporal order. -/
inductive Act where
  | blockOriginal
  | fireCellchange
  | fireDatasetcomplete
  | deferredSubmit
  | fireSubmitEvent
  deriving DecidableEq, Repr

/-- The document-level `ondatasetcomplete` handler (source lines 204–210):
once the surrogate event has bubbled to the document, perform the deferred
`target.submit()` — which in IE never fires a `submit` event itself (source
lines 165–167) — unless the target is not a form or some handler along the
way set `returnValue` to `false`. -/
def ondatasetcompleteDoc (nodeName : Nat → String) (evt : IEEvent) : List Act :=
  match evt.srcElement with
  | some t =>
      if nodeName t = "FORM" ∧ evt.returnValue ≠ some false then [Act.deferredSubmit]
      else []
  | none => []

/-- The singleton change/submit compatibility handler (source lines
215–237) handling one original native event `evt`.  `appPhase` is the
bubble phase of the synchronously dispatched surrogate: the transformation
the page's handlers (including the delegated liveui listeners, whose user
callbacks may call `preventDefault`, i.e. set `returnValue = false`) apply
to the fresh surrogate event before it reaches the document-level handler.
Returns the original event as mutated, and the trace of actions: for a
`submit` event the original's default is blocked (`evt.returnValue =
false`, line 234) strictly before `fireEvent('ondatasetcomplete')` (line
235), whose dispatch ends at the document handler above. -/
def changeSubmitHandlerIE (nodeName : Nat → String) (appPhase : IEEvent → IEEvent)
    (evt : IEEvent) : IEEvent × List Act :=
  match evt.srcElement with
  | none => (evt, [])
  | some target =>
      let acts1 : List Act :=
        if (evt.type = "propertychange" ∧ evt.propertyName = "checked") ∨ evt.type = "change"
        then [Act.fireCellchange] else []
      if evt.type = "submit" then
        let evtBlocked : IEEvent := { evt with returnValue := some false }
        let surrogate : IEEvent :=
          { type := "datasetcomplete", srcElement := some target,
            propertyName := "", returnValue := none }
        (evtBlocked,
          acts1 ++ Act.blockOriginal :: Act.fireDatasetcomplete ::
            ondatasetcompleteDoc nodeName (appPhase surrogate))
      else (evt, acts1)

/-- The DOM services consumed by `wireIEChangeSubmitHack`. -/
structure IEDom where
  nextSibling : Nat → Option Nat
  nodeName : Nat → String
  inputType : Nat → String
  hasFirstChild : Nat → Bool
  inputsOf : Nat → List Nat
  formsOf : Nat → List Nat

/-- The identity of the singleton `changeSubmitHandlerIE` function (source
lines 213–215: it must be a single shared function so `detachEvent` can
find it). -/
def csHandler : Nat := 0

/-- Model of `n.attachEvent(ev, h)`: IE appends a registration, even if the same
function is already attached.  State is the list of `(node, DOM event
name, handler identity)` registrations in attach order. -/
def attachEventIE (st : List (Nat × String × Nat)) (n : Nat) (ev : String)
    (h : Nat) : List (Nat × String × Nat) :=
  st ++ [(n, ev, h)]

/-- Model of `n.detachEvent(ev, h)`: removes one matching registration (no-op when
none exists). -/
def detachEventIE (st : List (Nat × String × Nat)) (n : Nat) (ev : String)
    (h : Nat) : List (Nat × String × Nat) :=
  st.erase (n, ev, h)

/-- Model of `wireNode` (source lines 178–191): on an INPUT, wire the singleton
handler to `onpropertychange` (checkbox/radio) or `onchange` (otherwise);
on a FORM, wire it to `onsubmit`; in every case detach it first so it is
never attached twice; other nodes are untouched. -/
def wireNode (d : IEDom) (st : List (Nat × String × Nat)) (n : Nat) :
    List (Nat × String × Nat) :=
  if d.nodeName n = "INPUT" then
    if d.inputType n = "checkbox" ∨ d.inputType n = "radio" then
      attachEventIE (detachEventIE st n "onpropertychange" csHandler) n "onpropertychange" csHandler
    else
      attachEventIE (detachEventIE st n "onchange" csHandler) n "onchange" csHandler
  else if d.nodeName n = "FORM" then
    attachEventIE (detachEventIE st n "onsubmit" csHandler) n "onsubmit" csHandler
  else st

/-- Body of the range loop of `wireIEChangeSubmitHack` (source lines
194–199): wire the node itself, then (for element nodes) every INPUT and
every FORM among its descendants. -/
def wireRootNode (d : IEDom) (st : List (Nat × String × Nat)) (n : Nat) :
    List (Nat × String × Nat) :=
  let st2 := wireNode d st n
  if d.hasFirstChild n then
    (d.formsOf n).foldl (wireNode d) ((d.inputsOf n).foldl (wireNode d) st2)
  else st2

/-- Model of `wireIEChangeSubmitHack(start, end)` (source lines 177–201): run
`wireRootNode` over every node of the sibling range. -/
def wireIEChangeSubmitHack (d : IEDom) (start endN : Nat) (fuel : Nat)
    (st : List (Nat × String × Nat)) : List (Nat × String × Nat) :=
  (rangeNodes d.nextSibling (some start) (d.nextSibling endN) fuel).foldl
    (wireRootNode d) st

/-- Model of `Meteor.ui._prepareForEvents(start, end)` (source lines 135–140): runs
the wiring hack when the compatibility layer is active, otherwise a
no-op. -/
def prepareForEvents (iehack : Bool) (d : IEDom) (start endN : Nat) (fuel : Nat)
    (st : List (Nat × String × Nat)) : List (Nat × String × Nat) :=
  if iehack then wireIEChangeSubmitHack d start endN fuel st else st

/-- The native event a node gets wired to by `wireNode`, per the source's
branches: `onpropertychange` for checkbox/radio inputs, `onchange` for
other inputs, `onsubmit` for forms. -/
def wiredEvent (d : IEDom) (n : Nat) : String :=
  if d.nodeName n = "INPUT" then
    if d.inputType n = "checkbox" ∨ d.inputType n = "radio" then "onpropertychange"
    else "onchange"
  else "onsubmit"

/-- Number of registrations of handler `h` for event `ev` on node `n`. -/
def countH (st : List (Nat × String × Nat)) (n : Nat) (ev : String) (h : Nat) : Nat :=
  st.count (n, ev, h)

/-- Concrete example DOM: a parent-link chain `0 ← 1 ← 2 ← 3` (node 1 is
the bound root, so node 0 is its context), no siblings, and a selector
matcher on which `.x` matches exactly node 2 inside context 0.  Used to
instantiate the theorems below. -/
def domA : Dom :=
  { parent := fun n => if n = 0 then none else some (n - 1),
    nextSibling := fun _ => none,
    find := fun c sel => if c = 0 ∧ sel = ".x" then [2] else [] }

/-- Concrete example DOM with a two-node sibling range `1, 2`. -/
def domB : Dom :=
  { parent := fun _ => some 0,
    nextSibling := fun n => if n = 1 then some 2 else none,
    find := fun _ _ => [] }

/-- Example bubbling registration on node 1: `click .x`, callback 5,
event data 9. -/
def regA : Registration :=
  regOf { eventType := "click", rewrittenType := "click", bubbles := true,
          selector := ".x", callback := 5 } 9 1

/-- Example non-bubbling registration on node 1: `focus .x` (rewritten to
`focusin`), callback 5, event data 9. -/
def regF : Registration :=
  regOf { eventType := "focus", rewrittenType := "focusin", bubbles := false,
          selector := ".x", callback := 5 } 9 1

/-- Example registration installed on node 1 by another subsystem (a
namespace other than `liveui`). -/
def regO : Registration :=
  { node := 1, rewrittenType := "click", ns := "other", eventType := "click",
    selector := "", bubbles := true, callback := 6, eventData := 2 }

/-- Concrete example IE DOM: node 1 is a FORM, node 2 a text INPUT, node 3
a checkbox INPUT; no siblings or descendants. -/
def domC : IEDom :=
  { nextSibling := fun _ => none,
    nodeName := fun n => if n = 1 then "FORM" else if n = 2 ∨ n = 3 then "INPUT" else "DIV",
    inputType := fun n => if n = 3 then "checkbox" else "text",
    hasFirstChild := fun _ => false,
    inputsOf := fun _ => [],
    formsOf := fun _ => [] }

/-! ## Helper lemmas -/

/-- A JavaScript `split` never returns an empty array. -/
theorem splitWsAux_ne_nil (l : List Char) : ∀ o, splitWsAux o l ≠ [] := by
  induction l with
  | nil => intro o; cases o <;> simp [splitWsAux]
  | cons c cs ih =>
      intro o
      cases o with
      | none =>
          simp only [splitWsAux]
          split
          · exact ih none
          · exact ih (some [c])
      | some acc =>
          simp only [splitWsAux]
          split
          · simp
          · exact ih (some (c :: acc))

theorem jsSplitWs_ne_nil (l : List Char) : jsSplitWs l ≠ [] :=
  splitWsAux_ne_nil l (some [])

/-- Every clause parses to exactly one binding (the zero-token guard of
source lines 58–59 is unreachable under JS split semantics). -/
theorem parseClause_eq_some (iehack : Bool) (cb : Nat) (clause : List Char) :
    ∃ b, parseClause iehack cb clause = some b := by
  rw [← Option.isSome_iff_exists]
  cases h : jsSplitWs clause with
  | nil => exact absurd h (jsSplitWs_ne_nil clause)
  | cons t rest => simp [parseClause, h]

/-- Binding order follows map order and, within a spec string, clause
order; each clause contributes through `parseClause` alone. -/
theorem parseEvents_eq_filterMap (iehack : Bool) (events : List (String × Nat)) :
    parseEvents iehack events
      = (events.flatMap (fun p => (jsSplitCommaWs p.1.data).map (fun c => (c, p.2)))).filterMap
          (fun q => parseClause iehack q.2 q.1) := by
  induction events with
  | nil => rfl
  | cons e es ih =>
      simp only [parseEvents, List.flatMap_cons, List.filterMap_append] at *
      rw [ih, List.filterMap_map]
      rfl

/-- Starting the walk at the context node immediately exits the loop. -/
theorem bubbleFind_at_context (parent : Nat → Option Nat) (results : List Nat)
    (b : Bool) (context : Nat) (fuel : Nat) :
    bubbleFind parent results b (some context) (some context) fuel = none := by
  cases fuel <;> simp [bubbleFind]

/-- Over a full parent-link path from `t` up to (excluding) `context`, the
bubbling walk returns exactly the first path node in the match set. -/
theorem bubbleFind_chain (parent : Nat → Option Nat) (results : List Nat) (context : Nat) :
    ∀ (p : List Nat) (t fuel : Nat), ChainTo parent context t p → p.length ≤ fuel →
      bubbleFind parent results true (some context) (some t) fuel
        = p.find? (fun n => decide (n ∈ results)) := by
  intro p
  induction p with
  | nil => intro t fuel h _; exact absurd h (by simp [ChainTo])
  | cons n rest ih =>
      intro t fuel h hf
      cases rest with
      | nil =>
          simp only [ChainTo] at h
          obtain ⟨hnt, hnc, hp⟩ := h
          subst hnt
          obtain ⟨f, rfl⟩ : ∃ f, fuel = f + 1 := ⟨fuel - 1, by simp at hf; omega⟩
          by_cases hm : n ∈ results
          · simp [bubbleFind, hnc, hm, List.find?]
          · simp [bubbleFind, hnc, hm, hp, bubbleFind_at_context, List.find?]
      | cons m rest2 =>
          simp only [ChainTo] at h
          obtain ⟨hnt, hnc, hpar, hch⟩ := h
          subst hnt
          obtain ⟨f, rfl⟩ : ∃ f, fuel = f + 1 := ⟨fuel - 1, by simp at hf; omega⟩
          by_cases hm : n ∈ results
          · simp [bubbleFind, hnc, hm, List.find?]
          · have hrec := ih m f hch (by simp at hf ⊢; omega)
            simp [bubbleFind, hnc, hm, hpar, hrec, List.find?]

/-- With `bubbles = false` the walk inspects at most the origin node. -/
theorem bubbleFind_nonbubbling (parent : Nat → Option Nat) (results : List Nat)
    (context t : Nat) (fuel : Nat) (hf : 1 ≤ fuel) :
    bubbleFind parent results false (some context) (some t) fuel
      = if t = context then none else if t ∈ results then some t else none := by
  obtain ⟨f, rfl⟩ : ∃ f, fuel = f + 1 := ⟨fuel - 1, by omega⟩
  by_cases h : t = context
  · simp [bubbleFind, h]
  · by_cases hm : t ∈ results <;> simp [bubbleFind, h, hm]

/-- Unfolded form of `runListener` when the selector is nonempty and the
bound node has a parent: the event's type is restored and the callback runs
iff the walk found a match. -/
theorem runListener_eq (dom : Dom) (r : Registration) (evt : Evt) (fuel : Nat)
    (context : Nat) (hsel : ¬(r.selector = "")) (hctx : dom.parent r.node = some context) :
    runListener dom r evt fuel
      = ({ evt with type := r.eventType },
         (bubbleFind dom.parent (dom.find context r.selector) r.bubbles (some context)
             (some evt.target) fuel).isSome) := by
  simp only [runListener, hctx, if_neg hsel]
  cases bubbleFind dom.parent (dom.find context r.selector) r.bubbles (some context)
      (some evt.target) fuel <;> simp

/-! ## Claims -/

/-- C1: for a binding with a nonempty selector and `bubbles = true`, and an
event with origin node `t` delivered to a bound node whose parent is the
context node, the user callback is invoked iff some node on the parent-link
path from `t` (inclusive) up to but excluding the context node lies in the
match set returned by the selector matcher for `(context, selector)`; the
first such node met walking upward (the innermost match) is the one that
ends the walk. -/
theorem c1_bubbling_walk (dom : Dom) (r : Registration) (context t : Nat)
    (p : List Nat) (ty : String) (fuel : Nat)
    (hb : r.bubbles = true) (hsel : ¬(r.selector = ""))
    (hctx : dom.parent r.node = some context)
    (hchain : ChainTo dom.parent context t p) (hfuel : p.length ≤ fuel) :
    ((runListener dom r ⟨ty, t⟩ fuel).2 = true
        ↔ ∃ n ∈ p, n ∈ dom.find context r.selector) ∧
    bubbleFind dom.parent (dom.find context r.selector) true (some context) (some t) fuel
      = p.find? (fun n => decide (n ∈ dom.find context r.selector)) := by
  have hbf := bubbleFind_chain dom.parent (dom.find context r.selector) context p t fuel
    hchain hfuel
  refine ⟨?_, hbf⟩
  rw [runListener_eq dom r ⟨ty, t⟩ fuel context hsel hctx]
  rw [show (⟨ty, t⟩ : Evt).target = t from rfl, hb, hbf]
  simp [List.find?_isSome]

/-- C1 witness: on the concrete chain `0 ← 1 ← 2 ← 3` with `.x` matching
node 2, a `click` originating at node 3 bound on node 1. -/
theorem c1_bubbling_walk_witness :
    ((runListener domA regA ⟨"click", 3⟩ 9).2 = true
        ↔ ∃ n ∈ [3, 2, 1], n ∈ domA.find 0 regA.selector) ∧
    bubbleFind domA.parent (domA.find 0 regA.selector) true (some 0) (some 3) 9
      = [3, 2, 1].find? (fun n => decide (n ∈ domA.find 0 regA.selector)) :=
  c1_bubbling_walk domA regA 0 3 [3, 2, 1] "click" 9 rfl (by decide) rfl
    ⟨rfl, by decide, rfl, rfl, by decide, rfl, rfl, by decide, rfl⟩ (by decide)

/-- C2: for a binding delivered with `bubbles = false` (the rewritten
focus/blur types) and a nonempty selector, the callback is invoked only
when the event's exact origin node itself is in the selector-match set —
the walk checks at most the origin node, so an event originating on a
strict descendant of a matching node never invokes the callback. -/
theorem c2_nonbubbling_origin_only (dom : Dom) (r : Registration) (context t : Nat)
    (ty : String) (fuel : Nat)
    (hb : r.bubbles = false) (hsel : ¬(r.selector = ""))
    (hctx : dom.parent r.node = some context) (hfuel : 1 ≤ fuel) :
    ((runListener dom r ⟨ty, t⟩ fuel).2 = true
        ↔ t ≠ context ∧ t ∈ dom.find context r.selector) ∧
    (t ∉ dom.find context r.selector → (runListener dom r ⟨ty, t⟩ fuel).2 = false) := by
  have hbf := bubbleFind_nonbubbling dom.parent (dom.find context r.selector) context t
    fuel hfuel
  constructor
  · rw [runListener_eq dom r ⟨ty, t⟩ fuel context hsel hctx]
    rw [show (⟨ty, t⟩ : Evt).target = t from rfl, hb, hbf]
    by_cases h : t = context
    · simp [h]
    · by_cases hm : t ∈ dom.find context r.selector <;> simp [h, hm]
  · intro hm
    rw [runListener_eq dom r ⟨ty, t⟩ fuel context hsel hctx]
    rw [show (⟨ty, t⟩ : Evt).target = t from rfl, hb, hbf]
    by_cases h : t = context <;> simp [h, hm]

/-- The range loop stops immediately when the cursor equals `after`. -/
theorem rangeNodes_self (next : Nat → Option Nat) (c : Option Nat) (fuel : Nat) :
    rangeNodes next c c fuel = [] := by
  cases fuel with
  | zero => cases c <;> rfl
  | succ f => cases c with
    | none => rfl
    | some n => simp [rangeNodes]

/-- The fueled range loop computes exactly the linked sibling chain, given
that the node after the range does not point back into it. -/
theorem rangeNodes_eq_chain (next : Nat → Option Nat) :
    ∀ (ns : List Nat) (start endN fuel : Nat),
      ns.head? = some start → ns.getLast? = some endN → Linked next ns →
      (∀ n ∈ ns, next endN ≠ some n) → ns.length ≤ fuel →
      rangeNodes next (some start) (next endN) fuel = ns := by
  intro ns
  induction ns with
  | nil => intro start endN fuel h _ _ _ _; simp at h
  | cons a rest ih =>
      intro start endN fuel hhead hlast hlink hafter hfuel
      have ha : a = start := by simpa using hhead
      subst ha
      obtain ⟨f, rfl⟩ : ∃ f, fuel = f + 1 := ⟨fuel - 1, by simp at hfuel; omega⟩
      have hno : ¬(some a = next endN) := fun h => hafter a (by simp) h.symm
      cases rest with
      | nil =>
          have he : a = endN := by simpa using hlast
          subst he
          simp [rangeNodes, hno, rangeNodes_self]
      | cons b rest2 =>
          simp only [Linked] at hlink
          obtain ⟨hab, hlink2⟩ := hlink
          have hlast2 : (b :: rest2).getLast? = some endN := by
            rwa [List.getLast?_cons_cons] at hlast
          have hrec := ih b endN f rfl hlast2 hlink2
            (fun n hn => hafter n (by simp [hn])) (by simp at hfuel ⊢; omega)
          simp [rangeNodes, hno, hab, hrec]

/-- Length of the per-node filter over the registrations added for a list
of bindings: one registration per binding per occurrence of the node. -/
theorem flatMap_regs_filter_len (bs : List Binding) (ns : List Nat) (ed n : Nat) :
    ((bs.flatMap (fun b => ns.map (regOf b ed))).filter (fun rg => rg.node == n)).length
      = bs.length * ns.count n := by
  induction bs with
  | nil => simp
  | cons b bs ih =>
      simp only [List.flatMap_cons, List.filter_append, List.length_append, ih]
      have hone : ((ns.map (regOf b ed)).filter (fun rg => rg.node == n)).length
          = ns.count n := by
        rw [List.filter_map, List.length_map, List.count, List.countP_eq_length_filter]
        rfl
      rw [hone, List.length_cons, Nat.succ_mul]
      omega

/-- C5: for a call whose `end` is reachable from `start` by next-sibling
links (the chain `ns`, inclusive), every parsed binding installs exactly
one low-level listener for its rewritten type under the fixed `liveui`
namespace on each node of the range, and on no node outside it. -/
theorem c5_attach_range (dom : Dom) (iehack : Bool) (start endN : Nat)
    (events : List (String × Nat)) (event_data fuel : Nat)
    (regs : List Registration) (ns : List Nat)
    (hhead : ns.head? = some start) (hlast : ns.getLast? = some endN)
    (hlink : Linked dom.nextSibling ns)
    (hafter : ∀ n ∈ ns, dom.nextSibling endN ≠ some n)
    (hnd : ns.Nodup) (hfuel : ns.length ≤ fuel) :
    attachEvents dom iehack start endN events event_data fuel regs
      = regs ++ (parseEvents iehack events).flatMap (fun b => ns.map (regOf b event_data)) ∧
    (∀ rg ∈ attachEvents dom iehack start endN events event_data fuel [],
        rg.ns = "liveui" ∧ rg.rewrittenType ∈ (parseEvents iehack events).map
          Binding.rewrittenType ∧ rg.node ∈ ns) ∧
    (∀ n : Nat,
      ((attachEvents dom iehack start endN events event_data fuel []).filter
          (fun rg => rg.node == n)).length
        = if n ∈ ns then (parseEvents iehack events).length else 0) := by
  have hrange := rangeNodes_eq_chain dom.nextSibling ns start endN fuel hhead hlast hlink
    hafter hfuel
  refine ⟨by simp [attachEvents, hrange], ?_, ?_⟩
  · intro rg hrg
    simp only [attachEvents, hrange, List.nil_append, List.mem_flatMap, List.mem_map] at hrg
    obtain ⟨b, hb, m, hm, rfl⟩ := hrg
    exact ⟨rfl, by simp [regOf]; exact ⟨b, hb, rfl⟩, hm⟩
  · intro n
    simp only [attachEvents, hrange, List.nil_append]
    rw [flatMap_regs_filter_len]
    by_cases h : n ∈ ns
    · simp [h, List.count_eq_one_of_mem hnd h]
    · simp [h, List.count_eq_zero_of_not_mem h]

/-- C5 witness: the two-sibling range `[1, 2]` of `domB` with the map
`{"click .a": 3}`. -/
theorem c5_attach_range_witness :
    attachEvents domB false 1 2 [("click .a", 3)] 4 5 []
      = [] ++ (parseEvents false [("click .a", 3)]).flatMap
          (fun b => [1, 2].map (regOf b 4)) ∧
    (∀ rg ∈ attachEvents domB false 1 2 [("click .a", 3)] 4 5 [],
        rg.ns = "liveui" ∧ rg.rewrittenType ∈ (parseEvents false [("click .a", 3)]).map
          Binding.rewrittenType ∧ rg.node ∈ [1, 2]) ∧
    (∀ n : Nat,
      ((attachEvents domB false 1 2 [("click .a", 3)] 4 5 []).filter
          (fun rg => rg.node == n)).length
        = if n ∈ [1, 2] then (parseEvents false [("click .a", 3)]).length else 0) :=
  c5_attach_range domB false 1 2 [("click .a", 3)] 4 5 [] [1, 2] rfl rfl
    ⟨rfl, trivial⟩ (by decide) (by decide) (by decide)

/-- C2 witness: on the concrete chain, a `focusin` on node 3 (descendant of
the matching node 2) does not invoke, while one on node 2 itself does. -/
theorem c2_nonbubbling_origin_only_witness :
    (((runListener domA regF ⟨"focusin", 3⟩ 9).2 = true
        ↔ 3 ≠ 0 ∧ 3 ∈ domA.find 0 regF.selector) ∧
      (3 ∉ domA.find 0 regF.selector → (runListener domA regF ⟨"focusin", 3⟩ 9).2 = false)) ∧
    (((runListener domA regF ⟨"focusin", 2⟩ 9).2 = true
        ↔ 2 ≠ 0 ∧ 2 ∈ domA.find 0 regF.selector) ∧
      (2 ∉ domA.find 0 regF.selector → (runListener domA regF ⟨"focusin", 2⟩ 9).2 = false)) :=
  ⟨c2_nonbubbling_origin_only domA regF 0 3 "focusin" 9 rfl (by decide) rfl (by decide),
   c2_nonbubbling_origin_only domA regF 0 2 "focusin" 9 rfl (by decide) rfl (by decide)⟩

/-- C3: for every spec map, parsing is total, order-preserving and
deterministic: each spec string is split into clauses, every clause yields
exactly one normalized binding except that a clause yielding zero
whitespace-separated tokens would yield none (under JS split semantics no
clause ever yields zero tokens), and parsing the same map twice yields
structurally identical binding lists. -/
theorem c3_parser_total_order (iehack : Bool) (cb : Nat) (clause : List Char)
    (events : List (String × Nat)) (_hne : jsSplitWs clause ≠ []) :
    (∃! b, parseClause iehack cb clause = some b) ∧
    (∀ (c : List Char) (k : Nat), parseClause iehack k c = none ↔ jsSplitWs c = []) ∧
    parseEvents iehack events
      = (events.flatMap (fun p => (jsSplitCommaWs p.1.data).map (fun c => (c, p.2)))).filterMap
          (fun q => parseClause iehack q.2 q.1) ∧
    parseEvents iehack events = parseEvents iehack events := by
  refine ⟨?_, ?_, parseEvents_eq_filterMap iehack events, rfl⟩
  · obtain ⟨b, hb⟩ := parseClause_eq_some iehack cb clause
    exact ⟨b, hb, fun b₂ hb₂ => by rw [hb] at hb₂; exact (Option.some_inj.mp hb₂).symm⟩
  · intro c k
    obtain ⟨b, hb⟩ := parseClause_eq_some iehack k c
    constructor
    · intro h; rw [h] at hb; exact absurd hb (by simp)
    · intro h; exact absurd h (jsSplitWs_ne_nil c)

/-- C3 witness: instantiation at the map `{"click .save, submit": 7}` and
the clause `"click .save"`. -/
theorem c3_parser_total_order_witness :
    (∃! b, parseClause false 7 "click .save".data = some b) ∧
    (∀ (c : List Char) (k : Nat), parseClause false k c = none ↔ jsSplitWs c = []) ∧
    parseEvents false [("click .save, submit", 7)]
      = ([("click .save, submit", 7)].flatMap
          (fun p => (jsSplitCommaWs p.1.data).map (fun c => (c, p.2)))).filterMap
          (fun q => parseClause false q.2 q.1) ∧
    parseEvents false [("click .save, submit", 7)]
      = parseEvents false [("click .save, submit", 7)] :=
  c3_parser_total_order false 7 "click .save".data [("click .save, submit", 7)] (by decide)

/-- C4: the type-rewriting switch is exactly the fixed table: `focus ↦
(focusin, bubbles=false)`, `blur ↦ (focusout, false)`, `change ↦
cellchange` and `submit ↦ datasetcomplete` (bubbles stays true) only when
the legacy compatibility layer is active and otherwise unchanged, and every
other type is unchanged with `bubbles = true`. -/
theorem c4_rewrite_table (iehack : Bool) (t : String)
    (hf : t ≠ "focus") (hb : t ≠ "blur") (hc : t ≠ "change") (hs : t ≠ "submit") :
    rewriteType iehack "focus" = ("focusin", false) ∧
    rewriteType iehack "blur" = ("focusout", false) ∧
    rewriteType true "change" = ("cellchange", true) ∧
    rewriteType false "change" = ("change", true) ∧
    rewriteType true "submit" = ("datasetcomplete", true) ∧
    rewriteType false "submit" = ("submit", true) ∧
    rewriteType iehack t = (t, true) := by
  refine ⟨by rfl, by rfl, by rfl, by rfl, by rfl, by rfl, ?_⟩
  simp [rewriteType, hf, hb, hc, hs]

/-- C4 witness: instantiation at the ordinary event type `click` with the
compatibility layer active. -/
theorem c4_rewrite_table_witness :
    rewriteType true "focus" = ("focusin", false) ∧
    rewriteType true "blur" = ("focusout", false) ∧
    rewriteType true "change" = ("cellchange", true) ∧
    rewriteType false "change" = ("change", true) ∧
    rewriteType true "submit" = ("datasetcomplete", true) ∧
    rewriteType false "submit" = ("submit", true) ∧
    rewriteType true "click" = ("click", true) :=
  c4_rewrite_table true "click" (by decide) (by decide) (by decide) (by decide)

/-- C6: `resetEvents(node)` removes every listener previously installed by
`attachEvents` under the `liveui` namespace on that node, for every event
type and binding; for an arbitrary registration state — including mixed
ones — it leaves listeners installed by other subsystems (and listeners on
other nodes) unchanged, and it is a no-op when none were installed; and
when the prior registrations were the ones installed by `attachEvents`
(all under `liveui`), firing any previously-bound event type on that node
after the reset never invokes any previously-bound callback. -/
theorem c6_reset_events (dom : Dom) (regs : List Registration) (node : Nat)
    (evt : Evt) (fuel : Nat) :
    (∀ rg ∈ resetEvents regs node, ¬(rg.node = node ∧ rg.ns = "liveui")) ∧
    (∀ rg : Registration, ¬(rg.node = node ∧ rg.ns = "liveui") →
      (resetEvents regs node).count rg = regs.count rg) ∧
    List.Sublist (resetEvents regs node) regs ∧
    ((∀ rg ∈ regs, ¬(rg.node = node ∧ rg.ns = "liveui")) → resetEvents regs node = regs) ∧
    ((∀ rg ∈ regs, rg.ns = "liveui") →
      (fireEvent dom (resetEvents regs node) node evt fuel).2 = []) := by
  have hmem : ∀ rg ∈ resetEvents regs node, rg ∈ regs :=
    fun rg hr => (List.mem_filter.mp hr).1
  have hgone : ∀ rg ∈ resetEvents regs node, ¬(rg.node = node ∧ rg.ns = "liveui") := by
    rintro rg hr ⟨h1, h2⟩
    have h3 := (List.mem_filter.mp hr).2
    simp [h1, h2] at h3
  refine ⟨hgone, ?_, List.filter_sublist regs, ?_, ?_⟩
  · intro rg h
    rw [resetEvents, List.count_filter (by simp; tauto)]
  · intro h
    exact List.filter_eq_self.mpr (fun rg hr => by have := h rg hr; simp; tauto)
  · intro hvac
    have hnode : ∀ rg ∈ resetEvents regs node, ¬(rg.node = node) := by
      intro rg hr hn
      exact hgone rg hr ⟨hn, hvac rg (hmem rg hr)⟩
    have hnil : (resetEvents regs node).filter
        (fun rg => rg.node == node && rg.rewrittenType == evt.type) = [] := by
      rw [List.filter_eq_nil_iff]
      intro rg hr
      simp [hnode rg hr]
    simp [fireEvent, hnil, runListeners]

/-- C6 witness: a mixed state on node 1 (one liveui registration `regA`,
one foreign-namespace registration `regO`) exercises the frame conjuncts,
and the purely liveui state `[regA]` exercises the fire-after-reset
conjunct with its hypothesis discharged. -/
theorem c6_reset_events_witness :
    ((∀ rg ∈ resetEvents [regA, regO] 1, ¬(rg.node = 1 ∧ rg.ns = "liveui")) ∧
     (∀ rg : Registration, ¬(rg.node = 1 ∧ rg.ns = "liveui") →
       (resetEvents [regA, regO] 1).count rg = [regA, regO].count rg) ∧
     List.Sublist (resetEvents [regA, regO] 1) [regA, regO] ∧
     ((∀ rg ∈ [regA, regO], ¬(rg.node = 1 ∧ rg.ns = "liveui")) →
       resetEvents [regA, regO] 1 = [regA, regO]) ∧
     ((∀ rg ∈ [regA, regO], rg.ns = "liveui") →
       (fireEvent domA (resetEvents [regA, regO] 1) 1 ⟨"click", 3⟩ 5).2 = [])) ∧
    (fireEvent domA (resetEvents [regA] 1) 1 ⟨"click", 3⟩ 5).2 = [] :=
  ⟨c6_reset_events domA [regA, regO] 1 ⟨"click", 3⟩ 5,
   (c6_reset_events domA [regA] 1 ⟨"click", 3⟩ 5).2.2.2.2 (by decide)⟩

/-- C7: `attachEvents` is not idempotent: calling it twice with the same
range and spec map appends the same registrations a second time instead of
deduplicating, so a single subsequent event matching one binding invokes
the user callback exactly twice (concretely: `{"click": 5}` bound twice on
node 1 and one `click` fired there yields two invocations, against one for
a single call). -/
theorem c7_attach_twice_duplicates (dom : Dom) (iehack : Bool) (start endN : Nat)
    (events : List (String × Nat)) (ed fuel : Nat) (regs : List Registration) :
    attachEvents dom iehack start endN events ed fuel
        (attachEvents dom iehack start endN events ed fuel regs)
      = regs ++ attachEvents dom iehack start endN events ed fuel []
             ++ attachEvents dom iehack start endN events ed fuel [] ∧
    (fireEvent domA (attachEvents domA false 1 1 [("click", 5)] 9 3
        (attachEvents domA false 1 1 [("click", 5)] 9 3 [])) 1 ⟨"click", 3⟩ 3).2
      = [(5, 9), (5, 9)] ∧
    (fireEvent domA (attachEvents domA false 1 1 [("click", 5)] 9 3 []) 1 ⟨"click", 3⟩ 3).2
      = [(5, 9)] :=
  ⟨by simp [attachEvents], by decide, by decide⟩

/-- C8 counterexample to the claim as stated: a delivered `focusin` event
whose selector does not match (origin node 3, match set `{2}`) does not
invoke the callback, yet the listener does NOT leave the event unchanged —
its `type` field is rewritten to `focus` (source line 92 runs before the
selector test). -/
theorem c8_counterexample :
    (runListener domA regF ⟨"focusin", 3⟩ 5).2 = false ∧
    (runListener domA regF ⟨"focusin", 3⟩ 5).1 ≠ (⟨"focusin", 3⟩ : Evt) := by decide

/-- C8 (amended): when an installed delegated listener runs, its observable
effects are exactly: the event's `type` field is set to the originally
declared event type (undoing the delivery rewrite) — unconditionally, even
when the callback is not invoked — and possibly the invocation of the user
callback with the event-data object as its execution context; the callback
is invoked iff the selector is empty or the ancestry walk finds a match,
and nothing else changes. -/
theorem c8_amended_effects (dom : Dom) (r : Registration) (evt : Evt) (fuel : Nat) :
    (runListener dom r evt fuel).1 = { evt with type := r.eventType } ∧
    ((runListener dom r evt fuel).2 = true ↔
      r.selector = "" ∨
        (bubbleFind dom.parent
            (match dom.parent r.node with
             | some c => dom.find c r.selector
             | none => []) r.bubbles (dom.parent r.node) (some evt.target) fuel).isSome) := by
  by_cases hsel : r.selector = ""
  · simp [runListener, hsel]
  · simp only [runListener, if_neg hsel]
    cases hbf : bubbleFind dom.parent
        (match dom.parent r.node with
         | some c => dom.find c r.selector
         | none => []) r.bubbles (dom.parent r.node) (some evt.target) fuel <;>
      simp [hsel, hbf]

/-- C9: for an original form-submission event under the compatibility
layer, the native default is blocked (`returnValue := false`) strictly
before the bubbling surrogate `datasetcomplete` event is dispatched, and
the deferred form submission is then performed at most once — exactly once
when no handler along the surrogate's bubble path cancelled it
(`returnValue` not `false`), and never when one did — via `target.submit()`,
a path that fires no `submit` event. -/
theorem c9_deferred_submit (nodeName : Nat → String) (appPhase : IEEvent → IEEvent)
    (evt : IEEvent) (f : Nat)
    (hty : evt.type = "submit") (hsrc : evt.srcElement = some f)
    (hform : nodeName f = "FORM")
    (hkeep : (appPhase ⟨"datasetcomplete", some f, "", none⟩).srcElement = some f) :
    (changeSubmitHandlerIE nodeName appPhase evt).1.returnValue = some false ∧
    (changeSubmitHandlerIE nodeName appPhase evt).2
      = Act.blockOriginal :: Act.fireDatasetcomplete ::
          (if (appPhase ⟨"datasetcomplete", some f, "", none⟩).returnValue = some false
           then [] else [Act.deferredSubmit]) ∧
    (changeSubmitHandlerIE nodeName appPhase evt).2.count Act.deferredSubmit ≤ 1 ∧
    ((changeSubmitHandlerIE nodeName appPhase evt).2.count Act.deferredSubmit
        = if (appPhase ⟨"datasetcomplete", some f, "", none⟩).returnValue = some false
          then 0 else 1) ∧
    Act.fireSubmitEvent ∉ (changeSubmitHandlerIE nodeName appPhase evt).2 := by
  have hA : ondatasetcompleteDoc nodeName (appPhase ⟨"datasetcomplete", some f, "", none⟩)
      = if (appPhase ⟨"datasetcomplete", some f, "", none⟩).returnValue = some false
        then [] else [Act.deferredSubmit] := by
    simp only [ondatasetcompleteDoc]
    rw [hkeep]
    by_cases h : (appPhase ⟨"datasetcomplete", some f, "", none⟩).returnValue = some false
    · simp [h, hform]
    · simp [h, hform]
  obtain ⟨ty, src, pn, rv⟩ := evt
  simp only at hty hsrc
  subst hty
  subst hsrc
  have hrun : changeSubmitHandlerIE nodeName appPhase ⟨"submit", some f, pn, rv⟩
      = (⟨"submit", some f, pn, some false⟩,
         Act.blockOriginal :: Act.fireDatasetcomplete ::
           ondatasetcompleteDoc nodeName (appPhase ⟨"datasetcomplete", some f, "", none⟩)) := by
    simp [changeSubmitHandlerIE]
  rw [hrun, hA]
  by_cases h : (appPhase ⟨"datasetcomplete", some f, "", none⟩).returnValue = some false <;>
    simp [h, List.count_cons]

/-- C9 witness: a form submission (form node 4) with an identity bubble
phase — nothing cancels, so the deferred submission happens exactly once. -/
theorem c9_deferred_submit_witness :
    (changeSubmitHandlerIE (fun _ => "FORM") id ⟨"submit", some 4, "", none⟩).1.returnValue
        = some false ∧
    (changeSubmitHandlerIE (fun _ => "FORM") id ⟨"submit", some 4, "", none⟩).2
      = Act.blockOriginal :: Act.fireDatasetcomplete ::
          (if (id (⟨"datasetcomplete", some 4, "", none⟩ : IEEvent)).returnValue = some false
           then [] else [Act.deferredSubmit]) ∧
    (changeSubmitHandlerIE (fun _ => "FORM") id
        ⟨"submit", some 4, "", none⟩).2.count Act.deferredSubmit ≤ 1 ∧
    ((changeSubmitHandlerIE (fun _ => "FORM") id
        ⟨"submit", some 4, "", none⟩).2.count Act.deferredSubmit
      = if (id (⟨"datasetcomplete", some 4, "", none⟩ : IEEvent)).returnValue = some false
        then 0 else 1) ∧
    Act.fireSubmitEvent ∉ (changeSubmitHandlerIE (fun _ => "FORM") id
        ⟨"submit", some 4, "", none⟩).2 :=
  c9_deferred_submit (fun _ => "FORM") id ⟨"submit", some 4, "", none⟩ 4 rfl rfl rfl rfl

/-- Detach-then-attach of the singleton handler never pushes any key's
registration count above one. -/
theorem countH_wireStep (st : List (Nat × String × Nat)) (m n : Nat) (e ev : String)
    (h : countH st n ev csHandler ≤ 1) :
    countH (attachEventIE (detachEventIE st m e csHandler) m e csHandler)
      n ev csHandler ≤ 1 := by
  unfold countH attachEventIE detachEventIE at *
  rw [List.count_append, List.count_erase, List.count_singleton]
  by_cases hk : ((m, e, csHandler) == (n, ev, csHandler)) = true
  · rw [if_pos hk]; omega
  · rw [if_neg hk]; omega

/-- The step `wireNode` preserves the at-most-one bound for every key. -/
theorem countH_wireNode (d : IEDom) (st : List (Nat × String × Nat)) (m n : Nat)
    (ev : String) (h : countH st n ev csHandler ≤ 1) :
    countH (wireNode d st m) n ev csHandler ≤ 1 := by
  unfold wireNode
  split_ifs
  · exact countH_wireStep st m n "onpropertychange" ev h
  · exact countH_wireStep st m n "onchange" ev h
  · exact countH_wireStep st m n "onsubmit" ev h
  · exact h

/-- Folding `wireNode` over any node list preserves the bound. -/
theorem countH_foldl_wireNode (d : IEDom) (l : List Nat) :
    ∀ (st : List (Nat × String × Nat)) (n : Nat) (ev : String),
      countH st n ev csHandler ≤ 1 →
      countH (l.foldl (wireNode d) st) n ev csHandler ≤ 1 := by
  induction l with
  | nil => intro st n ev h; exact h
  | cons m l ih =>
      intro st n ev h
      exact ih _ n ev (countH_wireNode d st m n ev h)

/-- The per-root-node wiring step preserves the bound. -/
theorem countH_wireRootNode (d : IEDom) (st : List (Nat × String × Nat)) (m n : Nat)
    (ev : String) (h : countH st n ev csHandler ≤ 1) :
    countH (wireRootNode d st m) n ev csHandler ≤ 1 := by
  unfold wireRootNode
  split
  · exact countH_foldl_wireNode d _ _ n ev
      (countH_foldl_wireNode d _ _ n ev (countH_wireNode d st m n ev h))
  · exact countH_wireNode d st m n ev h

/-- A whole `wireIEChangeSubmitHack` call preserves the bound. -/
theorem countH_wireHack (d : IEDom) (start endN fuel : Nat)
    (st : List (Nat × String × Nat)) (n : Nat) (ev : String)
    (h : countH st n ev csHandler ≤ 1) :
    countH (wireIEChangeSubmitHack d start endN fuel st) n ev csHandler ≤ 1 := by
  unfold wireIEChangeSubmitHack
  generalize rangeNodes d.nextSibling (some start) (d.nextSibling endN) fuel = ms
  induction ms generalizing st with
  | nil => exact h
  | cons m ms ih =>
      simp only [List.foldl_cons]
      exact ih _ (countH_wireRootNode d st m n ev h)

/-- C10: wiring the compatibility layer is idempotent per node: any number
of `prepareForEvents` calls over ranges containing the same INPUT or FORM
node leaves at most one compatibility handler installed on that node for
its wired native event (`onpropertychange` for checkbox/radio inputs,
`onchange` for other inputs, `onsubmit` for forms), because the single
shared handler function is always detached before being attached. -/
theorem c10_wire_idempotent (d : IEDom) (calls : List (Bool × Nat × Nat × Nat))
    (st : List (Nat × String × Nat)) (n : Nat)
    (h : countH st n (wiredEvent d n) csHandler ≤ 1) :
    countH (calls.foldl (fun s c => prepareForEvents c.1 d c.2.1 c.2.2.1 c.2.2.2 s) st)
        n (wiredEvent d n) csHandler ≤ 1 ∧
    (∀ (st2 : List (Nat × String × Nat)) (m : Nat),
        d.nodeName m = "INPUT" ∨ d.nodeName m = "FORM" →
      wireNode d st2 m
        = attachEventIE (detachEventIE st2 m (wiredEvent d m) csHandler) m
            (wiredEvent d m) csHandler) := by
  constructor
  · induction calls generalizing st with
    | nil => exact h
    | cons c cs ih =>
        simp only [List.foldl_cons]
        apply ih
        unfold prepareForEvents
        split
        · exact countH_wireHack d c.2.1 c.2.2.1 c.2.2.2 st n (wiredEvent d n) h
        · exact h
  · intro st2 m hm
    unfold wireNode wiredEvent
    split_ifs with h1 h2
    · rfl
    · rfl
    · rfl
    · rcases hm with hi | hf
      · exact absurd hi h1
      · exact absurd hf (by assumption)

/-- C10 witness: two consecutive wirings over the one-node range holding
the form node 1 of the concrete IE DOM, starting from no registrations. -/
theorem c10_wire_idempotent_witness :
    countH ([((true : Bool), (1 : Nat), (1 : Nat), (3 : Nat)),
        ((true : Bool), (1 : Nat), (1 : Nat), (3 : Nat))].foldl
          (fun s c => prepareForEvents c.1 domC c.2.1 c.2.2.1 c.2.2.2 s) [])
        1 (wiredEvent domC 1) csHandler ≤ 1 ∧
    (∀ (st2 : List (Nat × String × Nat)) (m : Nat),
        domC.nodeName m = "INPUT" ∨ domC.nodeName m = "FORM" →
      wireNode domC st2 m
        = attachEventIE (detachEventIE st2 m (wiredEvent domC m) csHandler) m
            (wiredEvent domC m) csHandler) :=
  c10_wire_idempotent domC
    [((true : Bool), (1 : Nat), (1 : Nat), (3 : Nat)),
     ((true : Bool), (1 : Nat), (1 : Nat), (3 : Nat))] [] 1 (by decide)

end LiveEvents
